import Mathlib

/-!
Verification development for the SportsEdge market-monitoring bot.

The signal/position engine of `runner.py` and `signals.py` is shallowly
embedded below.  Prices (Python floats holding small decimal fractions)
are modelled as rationals, timestamps (Python ints from `time.time()`)
as integers, and the per-key slices of the process-wide `STATE`
dictionaries as explicit values threaded through each function.
Environment-overridable tuning constants are fixed at their source
defaults.  Presentation-only payloads (Discord/Telegram message
formatting, confidence scores, the alerts log, numeric interpolation in
reason strings) are elided; every control-flow decision of the embedded
code paths is kept.
-/

set_option maxRecDepth 4000

namespace SportsEdge

namespace Runner

/-- Guardrail constant `MIN_PRICE` (runner.py, default `0.05`). -/
def MIN_PRICE : ℚ := 5 / 100

/-- Guardrail constant `MAX_PRICE` (runner.py, default `0.95`). -/
def MAX_PRICE : ℚ := 95 / 100

/-- Exit constant `TP1_CENTS` (default `3`). -/
def TP1_CENTS : ℚ := 3

/-- Exit constant `TP2_CENTS` (default `6`). -/
def TP2_CENTS : ℚ := 6

/-- Exit constant `SL_CENTS` (default `2`). -/
def SL_CENTS : ℚ := 2

/-- Exit constant `TRAIL_START_CENTS` (default `4`). -/
def TRAIL_START_CENTS : ℚ := 4

/-- Exit constant `TRAIL_GAP_CENTS` (default `2`). -/
def TRAIL_GAP_CENTS : ℚ := 2

/-- Exit constant `TIME_STOP_MIN` (default `20`). -/
def TIME_STOP_MIN : ℚ := 20

/-- History capacity: the literal `320` in `push_history`. -/
def HIST_CAP : Nat := 320

/-- `cents_diff(now_p, old_p) = (now_p - old_p) * 100.0` (runner.py). -/
def centsDiff (nowP oldP : ℚ) : ℚ := (nowP - oldP) * 100

/-- `in_guardrails(p) = MIN_PRICE <= p <= MAX_PRICE` (runner.py). -/
def inGuardrails (p : ℚ) : Bool := decide (MIN_PRICE ≤ p) && decide (p ≤ MAX_PRICE)

/-- One history entry, the dict `\x7b"t": now_ts(), "p": float(price)\x7d`
pushed by `push_history`. -/
structure Obs where
  t : ℤ
  p : ℚ
deriving Repr, DecidableEq

/-- `push_history(key, price)`: append the new observation, then
`del h[:-320]` keeps only the most recent 320 entries. -/
def pushHistory (h : List Obs) (now : ℤ) (price : ℚ) : List Obs :=
  if (h ++ [(⟨now, price⟩ : Obs)]).length > HIST_CAP then
    (h ++ [(⟨now, price⟩ : Obs)]).drop ((h ++ [(⟨now, price⟩ : Obs)]).length - HIST_CAP)
  else h ++ [(⟨now, price⟩ : Obs)]

/-- Folding a whole sequence of pushes into an initially-empty buffer
(the per-key buffer is created lazily by `setdefault(key, [])`). -/
def pushAll (ps : List Obs) : List Obs :=
  ps.foldl (fun acc o => pushHistory acc o.t o.p) []

/-- `prev_price(key)`: the second-most-recent price, `None` when fewer
than 2 observations exist. -/
def prevPrice (h : List Obs) : Option ℚ :=
  if h.length < 2 then none else (h.drop (h.length - 2)).head?.map Obs.p

/-- `price_over_snaps(key, snaps)`: the pair `(h[-snaps].p, h[-1].p)`,
`None` when fewer than `snaps` observations exist. -/
def priceOverSnaps (h : List Obs) (snaps : ℕ) : Option (ℚ × ℚ) :=
  if h.length < snaps then none
  else
    match (h.drop (h.length - snaps)).head?, h.getLast? with
    | some a, some b => some (a.p, b.p)
    | _, _ => none

lemma pushHistory_eq_drop (h : List Obs) (now : ℤ) (price : ℚ) :
    pushHistory h now price
      = (h ++ [(⟨now, price⟩ : Obs)]).drop (h.length + 1 - HIST_CAP) := by
  unfold pushHistory
  split
  next hc =>
    congr 1
    simp only [List.length_append, List.length_cons, List.length_nil, Nat.zero_add]
  next hc =>
    have h0 : h.length + 1 - HIST_CAP = 0 := by
      simp only [List.length_append, List.length_cons, List.length_nil,
        Nat.zero_add] at hc
      omega
    rw [h0, List.drop_zero]

lemma pushHistory_length_le (h : List Obs) (now : ℤ) (price : ℚ)
    (hh : h.length ≤ HIST_CAP) : (pushHistory h now price).length ≤ HIST_CAP := by
  unfold pushHistory
  split
  next hc =>
    simp only [List.length_drop]
    omega
  next hc =>
    simp only [List.length_append, List.length_cons, List.length_nil,
      Nat.zero_add] at hc ⊢
    omega

lemma foldl_push_eq (ps : List Obs) :
    ∀ h : List Obs, h.length ≤ HIST_CAP →
      ps.foldl (fun acc o => pushHistory acc o.t o.p) h
        = (h ++ ps).drop (h.length + ps.length - HIST_CAP) := by
  induction ps with
  | nil =>
    intro h hh
    have h0 : h.length + ([] : List Obs).length - HIST_CAP = 0 := by
      simp only [List.length_nil]
      omega
    simp only [List.foldl_nil, List.append_nil, List.length_nil] at h0 ⊢
    rw [h0, List.drop_zero]
  | cons o t ih =>
    intro h hh
    have ho : (⟨o.t, o.p⟩ : Obs) = o := rfl
    have hlen : (pushHistory h o.t o.p).length ≤ HIST_CAP :=
      pushHistory_length_le h o.t o.p hh
    have hdrop : pushHistory h o.t o.p
        = (h ++ [o]).drop (h.length + 1 - HIST_CAP) := by
      rw [pushHistory_eq_drop, ho]
    have hle : h.length + 1 - HIST_CAP ≤ (h ++ [o]).length := by
      simp only [List.length_append, List.length_cons, List.length_nil, Nat.zero_add]
      omega
    have hsplit : (h ++ [o]).drop (h.length + 1 - HIST_CAP) ++ t
        = ((h ++ [o]) ++ t).drop (h.length + 1 - HIST_CAP) :=
      (List.drop_append_of_le_length hle).symm
    rw [List.foldl_cons, ih (pushHistory h o.t o.p) hlen, hdrop]
    rw [hsplit]
    rw [List.drop_drop]
    rw [List.append_assoc, List.singleton_append]
    congr 1
    simp only [List.length_drop, List.length_append, List.length_cons,
      List.length_nil, Nat.zero_add]
    omega

/-- C3 — For every sequence of pushes, the per-key history buffer never
exceeds its capacity `HIST_CAP = 320`, and after every push (that is, for
every sequence `ps` of pushes so far) it holds exactly the most recent
`min ps.length 320` observations in insertion order with the oldest
evicted first: the buffer is precisely the suffix
`ps.drop (ps.length - 320)` of the pushed sequence. -/
theorem push_history_bounded_fifo (ps : List Obs) :
    pushAll ps = ps.drop (ps.length - HIST_CAP) ∧
    (pushAll ps).length = min ps.length HIST_CAP ∧
    (pushAll ps).length ≤ HIST_CAP := by
  have h := foldl_push_eq ps [] (by simp)
  simp only [List.nil_append, List.length_nil, Nat.zero_add] at h
  refine ⟨h, ?_, ?_⟩
  · rw [pushAll, h, List.length_drop]
    omega
  · rw [pushAll, h, List.length_drop]
    omega

/-- One open position, the dict
`\x7b"entry": ..., "opened": now_ts(), "peak": ...\x7d` stored in
`STATE["positions"][key]` by `pos_open`. -/
structure Position where
  entry : ℚ
  opened : ℤ
  peak : ℚ
deriving Repr, DecidableEq

/-- `pos_open(key, entry_price)`: no-op when a position already exists
for the key, else create `entry/opened/peak` with `peak = entry_price`. -/
def posOpen (pos : Option Position) (entryPrice : ℚ) (now : ℤ) : Option Position :=
  match pos with
  | some p => some p
  | none => some ⟨entryPrice, now, entryPrice⟩

/-- `pos_update_peak(key, price_now)`: when a position exists, raise the
peak to `price_now` if `price_now > peak`. -/
def posUpdatePeak (pos : Option Position) (priceNow : ℚ) : Option Position :=
  match pos with
  | none => none
  | some p => if priceNow > p.peak then some { p with peak := priceNow } else some p

/-- `pos_close(key)`: delete the position record for the key. -/
def posClose (_pos : Option Position) : Option Position := none

/-- `exit_signal(key, price_now)` on an existing position (runner.py):
the fixed priority chain TP2, TP1, SL, trailing stop, time stop.  Only
the action string of the returned `(action, reason)` pair is modelled;
the reason strings are presentational. -/
def exitSignalPos (p : Position) (priceNow : ℚ) (now : ℤ) : Option String :=
  if centsDiff priceNow p.entry ≥ TP2_CENTS then some "TP2"
  else if centsDiff priceNow p.entry ≥ TP1_CENTS then some "TP1"
  else if centsDiff priceNow p.entry ≤ -SL_CENTS then some "SL"
  else if centsDiff p.peak p.entry ≥ TRAIL_START_CENTS
          ∧ priceNow ≤ p.peak - TRAIL_GAP_CENTS / 100 then some "TRAIL"
  else if ((now - p.opened : ℤ) : ℚ) / 60 ≥ TIME_STOP_MIN
          ∧ centsDiff priceNow p.entry < TP1_CENTS * (1 / 2) then some "TIME"
  else none

/-- `exit_signal(key, price_now)` including the
`STATE["positions"].get(key)` lookup: `None` when no position is open. -/
def exitSignal (pos : Option Position) (priceNow : ℚ) (now : ℤ) : Option String :=
  match pos with
  | none => none
  | some p => exitSignalPos p priceNow now

/-- The actions for which the caller closes the position
(`if action in ("TP2", "SL", "TRAIL", "TIME"): pos_close(key)`). -/
def CLOSERS : List String := ["TP2", "SL", "TRAIL", "TIME"]

/-- The per-tick exits block of the scan loop (runner.py main, the
`# Exits` section): when a position exists, update the peak, evaluate
the exit signal, and close the position only for actions in `CLOSERS`.
Returns the new position record and the emitted action, if any. -/
def exitsStep (pos : Option Position) (priceNow : ℚ) (now : ℤ) :
    Option Position × Option String :=
  match pos with
  | none => (none, none)
  | some p =>
    let pos1 := posUpdatePeak (some p) priceNow
    match exitSignal pos1 priceNow now with
    | none => (pos1, none)
    | some action =>
      (if action ∈ CLOSERS then posClose pos1 else pos1, some action)

lemma posUpdatePeak_some (p : Position) (priceNow : ℚ) :
    posUpdatePeak (some p) priceNow = some { p with peak := max p.peak priceNow } := by
  show (if priceNow > p.peak then some { p with peak := priceNow } else some p)
      = some { p with peak := max p.peak priceNow }
  split
  next hgt =>
    rw [max_eq_right (le_of_lt hgt)]
  next hgt =>
    rw [max_eq_left (le_of_not_lt hgt)]

/-- C1 — exit evaluation on an open position follows the fixed priority
order TP2, TP1, SL, trailing stop, time stop, returning the first
condition that matches; in particular a position with `entry = 0.50`,
`peak = 0.50` seen at `price_now = 0.57` yields TP2 (pnl `+7c` exceeds
both take-profit thresholds, and TP2 is checked first). -/
theorem exit_signal_priority_order (p : Position) (priceNow : ℚ) (now : ℤ) :
    (TP2_CENTS ≤ centsDiff priceNow p.entry →
      exitSignalPos p priceNow now = some "TP2") ∧
    (TP1_CENTS ≤ centsDiff priceNow p.entry ∧ centsDiff priceNow p.entry < TP2_CENTS →
      exitSignalPos p priceNow now = some "TP1") ∧
    (centsDiff priceNow p.entry ≤ -SL_CENTS →
      exitSignalPos p priceNow now = some "SL") ∧
    (-SL_CENTS < centsDiff priceNow p.entry ∧ centsDiff priceNow p.entry < TP1_CENTS ∧
      TRAIL_START_CENTS ≤ centsDiff p.peak p.entry ∧
      priceNow ≤ p.peak - TRAIL_GAP_CENTS / 100 →
      exitSignalPos p priceNow now = some "TRAIL") ∧
    (-SL_CENTS < centsDiff priceNow p.entry ∧ centsDiff priceNow p.entry < TP1_CENTS ∧
      ¬ (TRAIL_START_CENTS ≤ centsDiff p.peak p.entry ∧
         priceNow ≤ p.peak - TRAIL_GAP_CENTS / 100) ∧
      TIME_STOP_MIN ≤ ((now - p.opened : ℤ) : ℚ) / 60 ∧
      centsDiff priceNow p.entry < TP1_CENTS * (1 / 2) →
      exitSignalPos p priceNow now = some "TIME") ∧
    (∀ t0 : ℤ, exitSignalPos ⟨1 / 2, t0, 1 / 2⟩ (57 / 100) now = some "TP2") := by
  refine ⟨?_, ?_, ?_, ?_, ?_, ?_⟩
  · intro h1
    simp only [exitSignalPos]
    rw [if_pos h1]
  · rintro ⟨h1, h2⟩
    simp only [exitSignalPos]
    rw [if_neg (by linarith), if_pos h1]
  · intro h1
    have hq : -SL_CENTS < TP1_CENTS := by norm_num [SL_CENTS, TP1_CENTS]
    have hq2 : TP1_CENTS < TP2_CENTS := by norm_num [TP1_CENTS, TP2_CENTS]
    simp only [exitSignalPos]
    rw [if_neg (by linarith), if_neg (by linarith), if_pos h1]
  · rintro ⟨h1, h2, h3, h4⟩
    have hq2 : TP1_CENTS < TP2_CENTS := by norm_num [TP1_CENTS, TP2_CENTS]
    simp only [exitSignalPos]
    rw [if_neg (by linarith), if_neg (by linarith), if_neg (by linarith),
      if_pos ⟨h3, h4⟩]
  · rintro ⟨h1, h2, h3, h4, h5⟩
    have hq2 : TP1_CENTS < TP2_CENTS := by norm_num [TP1_CENTS, TP2_CENTS]
    simp only [exitSignalPos]
    rw [if_neg (by linarith), if_neg (by linarith), if_neg (by linarith),
      if_neg h3, if_pos ⟨h4, h5⟩]
  · intro t0
    simp only [exitSignalPos]
    rw [if_pos (by norm_num [centsDiff, TP2_CENTS])]

/-- Witness for C1: a position entered at `0.50` with peak `0.50` seen at
`0.54` (pnl `+4c`, above TP1 but below TP2) yields TP1. -/
theorem exit_signal_priority_order_witness :
    exitSignalPos ⟨1 / 2, 0, 1 / 2⟩ (54 / 100) 0 = some "TP1" :=
  (exit_signal_priority_order ⟨1 / 2, 0, 1 / 2⟩ (54 / 100) 0).2.1
    (by norm_num [centsDiff, TP1_CENTS, TP2_CENTS])

lemma exitSignalPos_tp1 (p : Position) (priceNow : ℚ) (now : ℤ)
    (h1 : TP1_CENTS ≤ centsDiff priceNow p.entry)
    (h2 : centsDiff priceNow p.entry < TP2_CENTS) :
    exitSignalPos p priceNow now = some "TP1" := by
  simp only [exitSignalPos]
  rw [if_neg (not_le.mpr h2), if_pos h1]

lemma exitSignalPos_tp1_inv (p : Position) (priceNow : ℚ) (now : ℤ)
    (h : exitSignalPos p priceNow now = some "TP1") :
    TP1_CENTS ≤ centsDiff priceNow p.entry ∧ centsDiff priceNow p.entry < TP2_CENTS := by
  simp only [exitSignalPos] at h
  split_ifs at h with h1 h2 h3 h4 h5
  · exact absurd h (by decide)
  · exact ⟨h2, lt_of_not_le h1⟩
  · exact absurd h (by decide)
  · exact absurd h (by decide)
  · exact absurd h (by decide)

lemma exitsStep_eq_none (p : Position) (priceNow : ℚ) (now : ℤ)
    (hsig : exitSignalPos ⟨p.entry, p.opened, max p.peak priceNow⟩ priceNow now
      = none) :
    exitsStep (some p) priceNow now
      = (some ⟨p.entry, p.opened, max p.peak priceNow⟩, none) := by
  simp only [exitsStep, posUpdatePeak_some, exitSignal, hsig]

lemma exitsStep_eq_some (p : Position) (priceNow : ℚ) (now : ℤ) (a : String)
    (hsig : exitSignalPos ⟨p.entry, p.opened, max p.peak priceNow⟩ priceNow now
      = some a) :
    exitsStep (some p) priceNow now
      = (if a ∈ CLOSERS then none
         else some ⟨p.entry, p.opened, max p.peak priceNow⟩, some a) := by
  simp only [exitsStep, posUpdatePeak_some, exitSignal, hsig, posClose]

/-- Counterexample for C2: the claim says the position record is left
unchanged by a TP1 tick, but the peak update performed on the same tick
raises the stored peak: a position `entry = 0.50, peak = 0.50` ticked at
`0.54` emits TP1 yet its record now carries `peak = 0.54`. -/
theorem tp1_record_changed_counterexample :
    (exitsStep (some ⟨1 / 2, 0, 1 / 2⟩) (27 / 50) 0).2 = some "TP1" ∧
    (exitsStep (some ⟨1 / 2, 0, 1 / 2⟩) (27 / 50) 0).1 ≠ some ⟨1 / 2, 0, 1 / 2⟩ := by
  have hmax : max (1 / 2 : ℚ) (27 / 50) = 27 / 50 :=
    max_eq_right (by norm_num)
  have hsig : exitSignalPos ⟨(1 : ℚ) / 2, 0, max (1 / 2 : ℚ) (27 / 50)⟩ (27 / 50) 0
      = some "TP1" :=
    exitSignalPos_tp1 _ _ _ (by norm_num [centsDiff, TP1_CENTS])
      (by norm_num [centsDiff, TP2_CENTS])
  have hstep := exitsStep_eq_some ⟨1 / 2, 0, 1 / 2⟩ (27 / 50) 0 "TP1" hsig
  have hmem : ("TP1" : String) ∉ CLOSERS := by decide
  rw [if_neg hmem] at hstep
  constructor
  · rw [hstep]
  · rw [hstep]
    intro hx
    dsimp only at hx
    have hpk := congrArg Position.peak (Option.some.inj hx)
    dsimp only at hpk
    rw [hmax] at hpk
    norm_num at hpk

/-- C2 (amended) — a tick whose exit evaluation returns TP1 leaves the
position open: the entry price and opened timestamp are unchanged and
only the peak may be raised to the tick price by the peak update, so a
subsequent tick at the same price still finds the position OPEN.  The
caller closes the position exactly for the actions TP2, SL, TRAIL and
TIME. -/
theorem tp1_keeps_position_open (p : Position) (priceNow : ℚ) (now now' : ℤ) :
    ((exitsStep (some p) priceNow now).2 = some "TP1" →
      (exitsStep (some p) priceNow now).1
        = some ⟨p.entry, p.opened, max p.peak priceNow⟩ ∧
      (exitsStep (some ⟨p.entry, p.opened, max p.peak priceNow⟩) priceNow now').1
        = some ⟨p.entry, p.opened, max p.peak priceNow⟩) ∧
    (∀ a : String, (exitsStep (some p) priceNow now).2 = some a →
      ((exitsStep (some p) priceNow now).1 = none ↔ a ∈ CLOSERS)) ∧
    ((exitsStep (some p) priceNow now).2 = none →
      (exitsStep (some p) priceNow now).1
        = some ⟨p.entry, p.opened, max p.peak priceNow⟩) := by
  have hmem : ("TP1" : String) ∉ CLOSERS := by decide
  have hmax : max (max p.peak priceNow) priceNow = max p.peak priceNow := by
    rw [max_assoc, max_self]
  rcases hsig : exitSignalPos ⟨p.entry, p.opened, max p.peak priceNow⟩ priceNow now with
    _ | a
  · have hstep := exitsStep_eq_none p priceNow now hsig
    refine ⟨?_, ?_, ?_⟩
    · intro h1
      rw [hstep] at h1
      simp at h1
    · intro b hb
      rw [hstep] at hb
      simp at hb
    · intro _
      rw [hstep]
  · have hstep := exitsStep_eq_some p priceNow now a hsig
    by_cases hc : a ∈ CLOSERS
    · rw [if_pos hc] at hstep
      refine ⟨?_, ?_, ?_⟩
      · intro h1
        rw [hstep] at h1
        have ha : a = "TP1" := by simpa using h1
        subst ha
        exact absurd hc hmem
      · intro b hb
        rw [hstep] at hb ⊢
        have hab : a = b := by simpa using hb
        subst hab
        simp [hc]
      · intro h0
        rw [hstep] at h0
        simp at h0
    · rw [if_neg hc] at hstep
      refine ⟨?_, ?_, ?_⟩
      · intro h1
        rw [hstep] at h1
        have ha : a = "TP1" := by simpa using h1
        subst ha
        have hbounds := exitSignalPos_tp1_inv _ _ _ hsig
        refine ⟨by rw [hstep], ?_⟩
        have hsig2 : exitSignalPos
            ⟨p.entry, p.opened, max (max p.peak priceNow) priceNow⟩ priceNow now'
            = some "TP1" := by
          rw [hmax]
          exact exitSignalPos_tp1 _ _ _ hbounds.1 hbounds.2
        have hstep2 := exitsStep_eq_some ⟨p.entry, p.opened, max p.peak priceNow⟩
          priceNow now' "TP1" hsig2
        rw [if_neg hmem] at hstep2
        rw [hstep2]
        dsimp only
        rw [hmax]
      · intro b hb
        rw [hstep] at hb ⊢
        have hab : a = b := by simpa using hb
        subst hab
        simp [hc]
      · intro h0
        rw [hstep] at h0
        simp at h0

/-- Witness for C2 (amended): on a TP1 tick at `0.54` against an
`entry = 0.50, peak = 0.50` position, the position stays open with peak
raised to `0.54`, and a second tick at `0.54` still finds it open. -/
theorem tp1_keeps_position_open_witness :
    (exitsStep (some ⟨1 / 2, 0, 1 / 2⟩) (27 / 50) 0).1
      = some ⟨1 / 2, 0, max (1 / 2) (27 / 50)⟩ ∧
    (exitsStep (some ⟨1 / 2, 0, max (1 / 2 : ℚ) (27 / 50)⟩) (27 / 50) 5).1
      = some ⟨1 / 2, 0, max (1 / 2) (27 / 50)⟩ := by
  have hsig : exitSignalPos ⟨(1 : ℚ) / 2, 0, max (1 / 2 : ℚ) (27 / 50)⟩ (27 / 50) 0
      = some "TP1" :=
    exitSignalPos_tp1 _ _ _ (by norm_num [centsDiff, TP1_CENTS])
      (by norm_num [centsDiff, TP2_CENTS])
  have hstep := exitsStep_eq_some ⟨1 / 2, 0, 1 / 2⟩ (27 / 50) 0 "TP1" hsig
  have h2 : (exitsStep (some (⟨1 / 2, 0, 1 / 2⟩ : Position)) (27 / 50) 0).2
      = some "TP1" := by
    rw [hstep]
  exact (tp1_keeps_position_open ⟨1 / 2, 0, 1 / 2⟩ (27 / 50) 0 5).1 h2

/-- C6 — `peak_price` is initialized to `entry_price` when the position
is opened and no operation ever lowers it while the position stays open:
`pos_open` on a fresh key stores `peak = entry`; `pos_open` on an open
key is a no-op; `pos_update_peak` stores `max(peak, price_now)`, which
is at least the old peak; `pos_update_peak` with no open position does
nothing. -/
theorem peak_init_and_monotone (p : Position) (e priceNow : ℚ) (now : ℤ) :
    posOpen none e now = some ⟨e, now, e⟩ ∧
    posOpen (some p) e now = some p ∧
    posUpdatePeak (some p) priceNow = some ⟨p.entry, p.opened, max p.peak priceNow⟩ ∧
    p.peak ≤ max p.peak priceNow ∧
    posUpdatePeak none priceNow = none :=
  ⟨rfl, rfl, posUpdatePeak_some p priceNow, le_max_left _ _, rfl⟩

/-- `cooldown_ok(cool_key, cooldown_sec)` (runner.py): the per-key last
fire times live in `STATE["cooldowns"]` with `.get(cool_key, 0)`
defaulting to 0; the store is modelled as a total map that is constant 0
for never-fired keys. -/
def cooldownOk (cd : String → ℤ) (coolKey : String) (cooldownSec now : ℤ) :
    Bool × (String → ℤ) :=
  if now - cd coolKey < cooldownSec then (false, cd)
  else (true, fun k => if k = coolKey then now else cd k)

/-- C5 — the cooldown gate returns true and stamps the record to `now`
exactly when `now - last ≥ cooldown_sec`, otherwise returns false and
leaves the store untouched; consequently an acquire at `t1` (cooldown
satisfied), a second within the window, and a third after it yield
`(true, false, true)`. -/
lemma cooldownOk_true (cd : String → ℤ) (k : String) (sec now : ℤ)
    (h : sec ≤ now - cd k) :
    cooldownOk cd k sec now = (true, fun k' => if k' = k then now else cd k') := by
  simp only [cooldownOk]
  rw [if_neg (not_lt.mpr h)]

lemma cooldownOk_false (cd : String → ℤ) (k : String) (sec now : ℤ)
    (h : now - cd k < sec) :
    cooldownOk cd k sec now = (false, cd) := by
  simp only [cooldownOk]
  rw [if_pos h]

theorem cooldown_gate_check_and_set (cd : String → ℤ) (k : String) (sec now : ℤ) :
    ((cooldownOk cd k sec now).1 = true ↔ sec ≤ now - cd k) ∧
    (sec ≤ now - cd k →
      (cooldownOk cd k sec now).2 k = now ∧
      ∀ k' : String, k' ≠ k → (cooldownOk cd k sec now).2 k' = cd k') ∧
    (now - cd k < sec → (cooldownOk cd k sec now).2 = cd) ∧
    (∀ t1 t2 t3 : ℤ, sec ≤ t1 - cd k → t2 - t1 < sec → sec ≤ t3 - t1 →
      (cooldownOk cd k sec t1).1 = true ∧
      (cooldownOk (cooldownOk cd k sec t1).2 k sec t2).1 = false ∧
      (cooldownOk (cooldownOk (cooldownOk cd k sec t1).2 k sec t2).2 k sec t3).1
        = true) := by
  refine ⟨⟨?_, ?_⟩, ?_, ?_, ?_⟩
  · intro hb
    by_contra hnle
    have hlt : now - cd k < sec := lt_of_not_le hnle
    rw [cooldownOk_false cd k sec now hlt] at hb
    simp at hb
  · intro hle
    rw [cooldownOk_true cd k sec now hle]
  · intro hle
    rw [cooldownOk_true cd k sec now hle]
    refine ⟨by simp, ?_⟩
    intro k' hk'
    simp [hk']
  · intro hlt
    rw [cooldownOk_false cd k sec now hlt]
  · intro t1 t2 t3 h1 h2 h3
    have hf1k : (fun k' => if k' = k then t1 else cd k') k = t1 := by simp
    have e1 := cooldownOk_true cd k sec t1 h1
    have e2 := cooldownOk_false (fun k' => if k' = k then t1 else cd k') k sec t2
      (by simp only [hf1k]; exact h2)
    have e3 := cooldownOk_true (fun k' => if k' = k then t1 else cd k') k sec t3
      (by simp only [hf1k]; exact h3)
    refine ⟨by rw [e1], ?_, ?_⟩
    · rw [e1]
      dsimp only
      rw [e2]
    · rw [e1]
      dsimp only
      rw [e2]
      dsimp only
      rw [e3]

/-- `record_first_seen(key, price)`: store the first observation for the
key, never overwriting. -/
def recordFirstSeen (fs : Option Obs) (now : ℤ) (price : ℚ) : Option Obs :=
  match fs with
  | some o => some o
  | none => some ⟨now, price⟩

/-- `in_opening_window(key, opening_minutes)`: true when no first-seen
record exists, else true iff at most `opening_minutes` have elapsed. -/
def inOpeningWindow (fs : Option Obs) (openingMinutes : ℚ) (now : ℤ) : Bool :=
  match fs with
  | none => true
  | some o => decide (((now - o.t : ℤ) : ℚ) / 60 ≤ openingMinutes)

/-- `opening_scout_signal(key, price_now, thresh, opening_minutes)`. -/
def openingScoutSignal (fs : Option Obs) (priceNow thresh openingMinutes : ℚ)
    (now : ℤ) : Option ℚ :=
  match fs with
  | none => none
  | some o =>
    if |priceNow - o.p| ≥ thresh ∧ inOpeningWindow fs openingMinutes now = true then
      some (priceNow - o.p)
    else none

/-- `pregame_big_move_signal(key, snaps, thresh)`. -/
def pregameBigMoveSignal (h : List Obs) (snaps : ℕ) (thresh : ℚ) : Option ℚ :=
  match priceOverSnaps h snaps with
  | none => none
  | some pair =>
    if |pair.2 - pair.1| ≥ thresh then some (pair.2 - pair.1) else none

/-- The spread filter `spread_c is not None and spread_c > max_spread`. -/
def spreadTooWide (spreadC : Option ℚ) (maxSpread : ℚ) : Bool :=
  match spreadC with
  | none => false
  | some s => decide (s > maxSpread)

/-- One per-league configuration record of `LEAGUE_CFG` (runner.py). -/
structure LeagueCfg where
  minSnaps : ℕ
  minMove : ℚ
  liveCooldown : ℤ
  pregameCooldown : ℤ
  minLiquidity : ℚ
  maxSpreadCents : ℚ
  pregameBigMove : ℚ
  openingScoutMinutes : ℚ

/-- The CBB row of `LEAGUE_CFG` at its defaults. -/
def CBB_CFG : LeagueCfg :=
  ⟨12, 5 / 100, 600, 900, 2500, 5, 6 / 100, 90⟩

/-- An emitted notification, reduced to its structured fields (message
text, confidence and alert-log payloads are presentational). -/
inductive Alert where
  | scoutOpen (price mv : ℚ)
  | scoutMom (price mv : ℚ)
  | entry (price : ℚ)
  | update (action : String) (price : ℚ)
deriving Repr, DecidableEq

/-- The slice of the process-wide `STATE` dictionaries belonging to one
tracked key: its `first_seen` record, history buffer, cooldown
timestamps (keyed by the cooldown-class suffix of `cool_key`), and open
position. -/
structure KeyState where
  firstSeen : Option Obs
  history : List Obs
  cooldowns : String → ℤ
  position : Option Position

/-- The per-outcome body of the Polymarket sports scan (runner.py main,
from the guardrail check through the exits block).  `cool_key` suffixes
`SCOUT_OPEN`, `SCOUT_MOM`, `LIVE`, `PREGAME` name the per-key cooldown
classes. -/
def polyStep (cfg : LeagueCfg) (st : KeyState) (mid liq : ℚ) (spreadC : Option ℚ)
    (isLive enablePregame : Bool) (now : ℤ) : KeyState × List Alert :=
  if !(inGuardrails mid) then (st, [])
  else if liq < cfg.minLiquidity then (st, [])
  else if spreadTooWide spreadC cfg.maxSpreadCents then (st, [])
  else
    let fs := recordFirstSeen st.firstSeen now mid
    let h := pushHistory st.history now mid
    match prevPrice h with
    | none => ({ st with firstSeen := fs, history := h }, [])
    | some pprev =>
      if h.length < cfg.minSnaps then ({ st with firstSeen := fs, history := h }, [])
      else
        match priceOverSnaps h cfg.minSnaps with
        | none => ({ st with firstSeen := fs, history := h }, [])
        | some _pair =>
          let scoutOpenR :=
            if !isLive && enablePregame then
              match openingScoutSignal fs mid cfg.pregameBigMove
                  cfg.openingScoutMinutes now with
              | none => (st.cooldowns, ([] : List Alert))
              | some mv =>
                let r := cooldownOk st.cooldowns "SCOUT_OPEN" cfg.pregameCooldown now
                (r.2, if r.1 then [Alert.scoutOpen mid mv] else [])
            else (st.cooldowns, ([] : List Alert))
          let scoutMomR :=
            if !isLive && enablePregame then
              match pregameBigMoveSignal h cfg.minSnaps cfg.pregameBigMove with
              | none => (scoutOpenR.1, ([] : List Alert))
              | some mv =>
                let r := cooldownOk scoutOpenR.1 "SCOUT_MOM" cfg.pregameCooldown now
                (r.2, if r.1 then [Alert.scoutMom mid mv] else [])
            else (scoutOpenR.1, ([] : List Alert))
          let entryR :=
            if |mid - pprev| ≥ cfg.minMove then
              let r := cooldownOk scoutMomR.1
                (if isLive then "LIVE" else "PREGAME")
                (if isLive then cfg.liveCooldown else cfg.pregameCooldown) now
              if r.1 then (r.2, [Alert.entry mid], posOpen st.position mid now)
              else (r.2, ([] : List Alert), st.position)
            else (scoutMomR.1, ([] : List Alert), st.position)
          let e := exitsStep entryR.2.2 mid now
          ({ st with
              firstSeen := fs
              history := h
              cooldowns := entryR.1
              position := e.1 },
           scoutOpenR.2 ++ scoutMomR.2 ++ entryR.2.1
             ++ (match e.2 with | none => [] | some a => [Alert.update a mid]))

/-- Kalshi scan constant `KALSHI_MIN_SNAPS` (default `10`). -/
def KALSHI_MIN_SNAPS : ℕ := 10

/-- Kalshi scan constant `KALSHI_MIN_MOVE_CENTS` (default `2`). -/
def KALSHI_MIN_MOVE_CENTS : ℚ := 2

/-- Kalshi scan constant `KALSHI_MIN_VOLUME` (default `5000`). -/
def KALSHI_MIN_VOLUME : ℚ := 5000

/-- Kalshi scan constant `KALSHI_COOLDOWN_SEC` (default `1800`). -/
def KALSHI_COOLDOWN_SEC : ℤ := 1800

/-- The per-market body of the Kalshi politics scan (runner.py main,
from the volume filter through the exits block; keyword/title filtering,
the market-count cap and the orderbook/message payloads are upstream or
presentational).  Prices here are the venue's YES price in cents
(`yes_price`, a 0–100 scale); the body applies no `in_guardrails`
check.  `first_seen` is never touched on this path. -/
def kalshiStep (st : KeyState) (yesC volume : ℚ) (now : ℤ) : KeyState × List Alert :=
  if volume < KALSHI_MIN_VOLUME then (st, [])
  else
    let h := pushHistory st.history now yesC
    match prevPrice h with
    | none => ({ st with history := h }, [])
    | some pprev =>
      if h.length < KALSHI_MIN_SNAPS then ({ st with history := h }, [])
      else
        match priceOverSnaps h KALSHI_MIN_SNAPS with
        | none => ({ st with history := h }, [])
        | some _pair =>
          let entryR :=
            if |yesC - pprev| ≥ KALSHI_MIN_MOVE_CENTS then
              let r := cooldownOk st.cooldowns "ALERT" KALSHI_COOLDOWN_SEC now
              if r.1 then (r.2, [Alert.entry yesC], posOpen st.position yesC now)
              else (r.2, ([] : List Alert), st.position)
            else (st.cooldowns, ([] : List Alert), st.position)
          let e := exitsStep entryR.2.2 yesC now
          ({ st with
              history := h
              cooldowns := entryR.1
              position := e.1 },
           entryR.2.1
             ++ (match e.2 with | none => [] | some a => [Alert.update a yesC]))

lemma polyStep_warmup (cfg : LeagueCfg) (st : KeyState) (mid liq : ℚ)
    (spreadC : Option ℚ) (isLive enablePregame : Bool) (now : ℤ)
    (hg : inGuardrails mid = true)
    (hl : ¬ liq < cfg.minLiquidity)
    (hs : spreadTooWide spreadC cfg.maxSpreadCents = false)
    (hw : (pushHistory st.history now mid).length < cfg.minSnaps) :
    polyStep cfg st mid liq spreadC isLive enablePregame now
      = ({ st with
            firstSeen := recordFirstSeen st.firstSeen now mid
            history := pushHistory st.history now mid }, []) := by
  simp only [polyStep, hg, Bool.not_true, Bool.false_eq_true, if_false, hs, hl]
  rcases hp : prevPrice (pushHistory st.history now mid) with _ | pprev
  · simp only [hp]
  · simp only [hp]
    rw [if_pos hw]

/-- A per-key state with an open position whose history holds a single
observation (warm-up far from complete under `min_snaps = 12`). -/
def c7state : KeyState :=
  ⟨some ⟨0, 1 / 2⟩, [⟨0, 1 / 2⟩], fun _ => 0, some ⟨1 / 2, 0, 1 / 2⟩⟩

/-- Counterexample for C7: with an open position (`entry = peak = 0.50`)
and only 2 observations after the push (fewer than `min_snaps = 12`), a
tick at `0.60` performs no peak update and no exit evaluation — the
position survives unchanged and nothing is emitted — even though exit
evaluation at `0.60` would have fired TP2 and closed the position. -/
theorem warmup_skips_exits_counterexample :
    (polyStep CBB_CFG c7state (3 / 5) 3000 none false true 60).1.position
      = some ⟨1 / 2, 0, 1 / 2⟩ ∧
    (polyStep CBB_CFG c7state (3 / 5) 3000 none false true 60).2 = [] ∧
    exitsStep (some ⟨1 / 2, 0, 1 / 2⟩) (3 / 5) 60 = (none, some "TP2") := by
  have hg : inGuardrails (3 / 5) = true := by
    simp only [inGuardrails, MIN_PRICE, MAX_PRICE, Bool.and_eq_true, decide_eq_true_eq]
    constructor <;> norm_num
  have hw : (pushHistory c7state.history 60 (3 / 5)).length < CBB_CFG.minSnaps := by
    simp [pushHistory, HIST_CAP, c7state, CBB_CFG]
  have h := polyStep_warmup CBB_CFG c7state (3 / 5) 3000 none false true 60 hg
    (by norm_num [CBB_CFG]) rfl hw
  refine ⟨by rw [h]; rfl, by rw [h], ?_⟩
  have hsig : exitSignalPos ⟨(1 : ℚ) / 2, 0, max ((1 : ℚ) / 2) (3 / 5)⟩ (3 / 5) 60
      = some "TP2" := by
    simp only [exitSignalPos]
    rw [if_pos (by norm_num [centsDiff, TP2_CENTS])]
  have hstep := exitsStep_eq_some ⟨1 / 2, 0, 1 / 2⟩ (3 / 5) 60 "TP2" hsig
  rw [hstep, if_pos (by decide : ("TP2" : String) ∈ CLOSERS)]

/-- C7 (amended) — when warm-up is incomplete (the history after the push
holds fewer than `min_snaps` observations), the Polymarket per-outcome
scan body skips not only signal evaluation but also the peak update and
exit evaluation: the tick only records first-seen and pushes history,
leaving cooldowns and any open position untouched and emitting nothing.
(In the orchestrated flow a position can only exist for a key that
already completed warm-up, since positions are opened after the warm-up
check and the history length never decreases.) -/
theorem warmup_skips_signal_and_exits (cfg : LeagueCfg) (st : KeyState)
    (mid liq : ℚ) (spreadC : Option ℚ) (isLive enablePregame : Bool) (now : ℤ)
    (hg : inGuardrails mid = true)
    (hl : ¬ liq < cfg.minLiquidity)
    (hs : spreadTooWide spreadC cfg.maxSpreadCents = false)
    (hw : (pushHistory st.history now mid).length < cfg.minSnaps) :
    polyStep cfg st mid liq spreadC isLive enablePregame now
      = ({ st with
            firstSeen := recordFirstSeen st.firstSeen now mid
            history := pushHistory st.history now mid }, []) :=
  polyStep_warmup cfg st mid liq spreadC isLive enablePregame now hg hl hs hw

/-- Witness for C7 (amended): the concrete warm-up-incomplete tick of
the counterexample state leaves everything but first-seen/history
untouched. -/
theorem warmup_skips_signal_and_exits_witness :
    polyStep CBB_CFG c7state (3 / 5) 3000 none false true 60
      = ({ c7state with
            firstSeen := recordFirstSeen c7state.firstSeen 60 (3 / 5)
            history := pushHistory c7state.history 60 (3 / 5) }, []) :=
  warmup_skips_signal_and_exits CBB_CFG c7state (3 / 5) 3000 none false true 60
    (by simp only [inGuardrails, MIN_PRICE, MAX_PRICE, Bool.and_eq_true,
          decide_eq_true_eq]
        constructor <;> norm_num)
    (by norm_num [CBB_CFG]) rfl
    (by simp [pushHistory, HIST_CAP, c7state, CBB_CFG])

lemma polyStep_guardrail_reject (cfg : LeagueCfg) (st : KeyState) (mid liq : ℚ)
    (spreadC : Option ℚ) (isLive enablePregame : Bool) (now : ℤ)
    (hg : inGuardrails mid = false) :
    polyStep cfg st mid liq spreadC isLive enablePregame now = (st, []) := by
  simp only [polyStep, hg, Bool.not_false, if_true]

/-- Nine observations at `q - 9`, a Kalshi history one push short of the
`KALSHI_MIN_SNAPS = 10` warm-up. -/
def kalshiHist (q : ℚ) : List Obs :=
  [⟨0, q - 9⟩, ⟨0, q - 9⟩, ⟨0, q - 9⟩, ⟨0, q - 9⟩, ⟨0, q - 9⟩,
   ⟨0, q - 9⟩, ⟨0, q - 9⟩, ⟨0, q - 9⟩, ⟨0, q - 9⟩]

/-- A Kalshi per-key state about to fire: warm-up one push away, the
cooldown exactly expired, no open position. -/
def kalshiState (q : ℚ) (now : ℤ) : KeyState :=
  ⟨none, kalshiHist q, fun _ => now - KALSHI_COOLDOWN_SEC, none⟩

lemma exitSignalPos_fresh (q : ℚ) (t : ℤ) :
    exitSignalPos ⟨q, t, q⟩ q t = none := by
  have h0 : centsDiff q q = 0 := by simp [centsDiff]
  simp only [exitSignalPos, h0]
  rw [if_neg (by norm_num [TP2_CENTS]), if_neg (by norm_num [TP1_CENTS]),
    if_neg (by norm_num [SL_CENTS]),
    if_neg (by norm_num [TRAIL_START_CENTS]),
    if_neg (by norm_num [TIME_STOP_MIN])]

lemma kalshiStep_fires (yesC : ℚ) (now : ℤ) :
    kalshiStep (kalshiState yesC now) yesC 5000 now
      = ({ kalshiState yesC now with
            history := pushHistory (kalshiHist yesC) now yesC
            cooldowns := fun k =>
              if k = "ALERT" then now else now - KALSHI_COOLDOWN_SEC
            position := some ⟨yesC, now, yesC⟩ },
         [Alert.entry yesC]) := by
  have hvol : ¬ (5000 : ℚ) < KALSHI_MIN_VOLUME := by norm_num [KALSHI_MIN_VOLUME]
  have hlen : (pushHistory (kalshiHist yesC) now yesC).length = 10 := by
    simp [pushHistory, HIST_CAP, kalshiHist]
  have hpush : pushHistory (kalshiHist yesC) now yesC
      = kalshiHist yesC ++ [⟨now, yesC⟩] := by
    simp [pushHistory, HIST_CAP, kalshiHist]
  have hprev : prevPrice (pushHistory (kalshiHist yesC) now yesC)
      = some (yesC - 9) := by
    rw [hpush]
    simp [prevPrice, kalshiHist]
  have hsnaps : priceOverSnaps (pushHistory (kalshiHist yesC) now yesC)
      KALSHI_MIN_SNAPS = some (yesC - 9, yesC) := by
    rw [hpush]
    simp [priceOverSnaps, kalshiHist, KALSHI_MIN_SNAPS]
  have hmove : |yesC - (yesC - 9)| ≥ KALSHI_MIN_MOVE_CENTS := by
    have : yesC - (yesC - 9) = 9 := by ring
    rw [this]
    norm_num [KALSHI_MIN_MOVE_CENTS]
  have hcool := cooldownOk_true (fun _ => now - KALSHI_COOLDOWN_SEC) "ALERT"
    KALSHI_COOLDOWN_SEC now (by simp)
  have hexit : exitsStep (some ⟨yesC, now, yesC⟩) yesC now
      = (some ⟨yesC, now, yesC⟩, none) := by
    have hsig : exitSignalPos ⟨yesC, now, max yesC yesC⟩ yesC now = none := by
      rw [max_self]
      exact exitSignalPos_fresh yesC now
    have h := exitsStep_eq_none ⟨yesC, now, yesC⟩ yesC now hsig
    rw [h]
    dsimp only
    rw [max_self]
  have hsnapslt : ¬ ((10 : ℕ) < KALSHI_MIN_SNAPS) := by
    norm_num [KALSHI_MIN_SNAPS]
  simp only [kalshiStep, kalshiState, hvol, if_false, hprev, hlen, hsnapslt,
    hsnaps, hmove, if_true, hcool, posOpen, hexit, List.append_nil]

/-- Counterexample for C8: in the Kalshi scan path a yes-price of 99 —
outside the `[MIN_PRICE, MAX_PRICE]` guardrails both as a raw value and
scaled to the 0–1 price domain (`0.99`) — is still used for the
displacement signal: the body emits an entry alert and opens a position
at it, because that path performs no guardrail check at all. -/
theorem kalshi_no_guardrail_counterexample :
    inGuardrails 99 = false ∧ inGuardrails (99 / 100) = false ∧
    (kalshiStep (kalshiState 99 1800) 99 5000 1800).2 = [Alert.entry 99] ∧
    (kalshiStep (kalshiState 99 1800) 99 5000 1800).1.position
      = some ⟨99, 1800, 99⟩ := by
  refine ⟨?_, ?_, ?_, ?_⟩
  · simp only [inGuardrails, MAX_PRICE, Bool.and_eq_false_iff, decide_eq_false_iff_not]
    right
    norm_num
  · simp only [inGuardrails, MAX_PRICE, Bool.and_eq_false_iff, decide_eq_false_iff_not]
    right
    norm_num
  · rw [kalshiStep_fires]
  · rw [kalshiStep_fires]

/-- C8 (amended) — the Polymarket per-outcome scan rejects any mid price
outside `[MIN_PRICE, MAX_PRICE]` before any state update or signal use,
but the Kalshi scan path performs no guardrail check: for every yes-price
whatsoever (with warm-up complete, volume sufficient and the cooldown
expired) the displacement signal fires, an entry alert is emitted at
that price and a position is opened at it. -/
theorem guardrail_check_poly_not_kalshi :
    (∀ (cfg : LeagueCfg) (st : KeyState) (mid liq : ℚ) (spreadC : Option ℚ)
       (isLive enablePregame : Bool) (now : ℤ), inGuardrails mid = false →
      polyStep cfg st mid liq spreadC isLive enablePregame now = (st, [])) ∧
    (∀ (yesC : ℚ) (now : ℤ),
      (kalshiStep (kalshiState yesC now) yesC 5000 now).2 = [Alert.entry yesC] ∧
      (kalshiStep (kalshiState yesC now) yesC 5000 now).1.position
        = some ⟨yesC, now, yesC⟩) := by
  constructor
  · intro cfg st mid liq spreadC isLive enablePregame now hg
    exact polyStep_guardrail_reject cfg st mid liq spreadC isLive enablePregame now hg
  · intro yesC now
    constructor
    · rw [kalshiStep_fires]
    · rw [kalshiStep_fires]

/-- Witness for C8 (amended): a Polymarket mid of `0.99` is rejected
outright — the tick leaves the state untouched and emits nothing. -/
theorem guardrail_check_poly_not_kalshi_witness :
    polyStep CBB_CFG c7state (99 / 100) 3000 none false true 0 = (c7state, []) :=
  guardrail_check_poly_not_kalshi.1 CBB_CFG c7state (99 / 100) 3000 none false true 0
    (by simp only [inGuardrails, MAX_PRICE, Bool.and_eq_false_iff,
          decide_eq_false_iff_not]
        right
        norm_num)

/-- Witness for C5: from a cold store (all last-fire times 0) with
`cooldown_sec = 1800`, acquires at `t = 2000, 3000, 4000` yield
`(true, false, true)`. -/
theorem cooldown_gate_check_and_set_witness :
    (cooldownOk (fun _ => 0) "k" 1800 2000).1 = true ∧
    (cooldownOk (cooldownOk (fun _ => 0) "k" 1800 2000).2 "k" 1800 3000).1 = false ∧
    (cooldownOk (cooldownOk (cooldownOk (fun _ => 0) "k" 1800 2000).2 "k" 1800
      3000).2 "k" 1800 4000).1 = true :=
  (cooldown_gate_check_and_set (fun _ => 0) "k" 1800 0).2.2.2 2000 3000 4000
    (by norm_num) (by norm_num) (by norm_num)

/-- A parsed JSON value, as produced by `json.load` in `load_state`. -/
inductive RawVal where
  | jnull
  | jbool (b : Bool)
  | jnum (q : ℚ)
  | jstr (s : String)
  | jarr (elems : List RawVal)
  | jobj (entries : List (String × RawVal))

/-- Whether the value is a dict (`isinstance(s, dict)`). -/
def RawVal.isDict : RawVal → Bool
  | .jobj _ => true
  | _ => false

/-- Dict lookup (first matching key). -/
def lookupKey (d : List (String × RawVal)) (k : String) : Option RawVal :=
  (d.find? (fun e => e.1 == k)).map Prod.snd

/-- `dict.setdefault(k, v)`: keep an existing entry, else append `(k, v)`
(Python dicts keep insertion order, so a new key lands at the end). -/
def setdefault (d : List (String × RawVal)) (k : String) (v : RawVal) :
    List (String × RawVal) :=
  if (lookupKey d k).isSome then d else d ++ [(k, v)]

/-- In-place replacement of the value stored under an existing key. -/
def replaceKey (d : List (String × RawVal)) (k : String) (v : RawVal) :
    List (String × RawVal) :=
  d.map (fun e => if e.1 = k then (k, v) else e)

/-- The fresh `\x7b"CBB": [], "NBA": []\x7d` sub-dict of `last_slugs`. -/
def defaultLastSlugs : RawVal := .jobj [("CBB", .jarr []), ("NBA", .jarr [])]

/-- The top-level keys of the empty state returned by `load_state`, in
source order. -/
def STATE_KEYS : List String :=
  ["history", "cooldowns", "positions", "first_seen", "alerts_log", "results",
   "last_slugs", "last_recap_day", "last_heartbeat_ts", "kalshi_last_scan_ts",
   "kalshi_snapshot"]

/-- The empty-state dict literal returned by `load_state` on a missing or
corrupt snapshot. -/
def defaultState : RawVal :=
  .jobj [("history", .jobj []), ("cooldowns", .jobj []), ("positions", .jobj []),
         ("first_seen", .jobj []), ("alerts_log", .jarr []), ("results", .jobj []),
         ("last_slugs", defaultLastSlugs), ("last_recap_day", .jnull),
         ("last_heartbeat_ts", .jnum 0), ("kalshi_last_scan_ts", .jnum 0),
         ("kalshi_snapshot", .jobj [])]

/-- The `setdefault` chain of `load_state` applied to a parsed dict;
`none` models the exception raised (and caught by the surrounding
`except`) when the persisted `last_slugs` value is not a dict. -/
def applyDefaults (d0 : List (String × RawVal)) :
    Option (List (String × RawVal)) :=
  let d := setdefault d0 "history" (.jobj [])
  let d := setdefault d "cooldowns" (.jobj [])
  let d := setdefault d "positions" (.jobj [])
  let d := setdefault d "first_seen" (.jobj [])
  let d := setdefault d "alerts_log" (.jarr [])
  let d := setdefault d "results" (.jobj [])
  let d := setdefault d "last_slugs" defaultLastSlugs
  match lookupKey d "last_slugs" with
  | some (.jobj ls) =>
    let ls := setdefault ls "CBB" (.jarr [])
    let ls := setdefault ls "NBA" (.jarr [])
    let d := replaceKey d "last_slugs" (.jobj ls)
    let d := setdefault d "last_recap_day" .jnull
    let d := setdefault d "last_heartbeat_ts" (.jnum 0)
    let d := setdefault d "kalshi_last_scan_ts" (.jnum 0)
    let d := setdefault d "kalshi_snapshot" (.jobj [])
    some d
  | _ => none

/-- What `load_state` finds on disk: no snapshot file, a file whose
contents `json.load` cannot parse, or a parsed JSON value. -/
inductive LoadInput where
  | missing
  | unparseable
  | parsed (v : RawVal)

/-- `load_state()` (runner.py): a missing snapshot yields the empty state;
a parse failure or a non-dict value (the explicit `ValueError`) is caught
and yields the empty state; a dict is completed with `setdefault`s, any
exception in that chain again yielding the empty state.  The model is a
total function: no input raises. -/
def loadState : LoadInput → RawVal
  | .missing => defaultState
  | .unparseable => defaultState
  | .parsed v =>
    match v with
    | .jobj d =>
      match applyDefaults d with
      | some d' => .jobj d'
      | none => defaultState
    | _ => defaultState

/-- The top-level key list of a state value. -/
def topKeys (v : RawVal) : List String :=
  match v with
  | .jobj d => d.map Prod.fst
  | _ => []

/-- C9 — loading a missing snapshot, an unparseable snapshot, or a parsed
value that is not a dict always returns the default empty state, whose
top-level keys are exactly the expected ones (history, cooldowns,
positions, first_seen, alerts_log, results, last_slugs, last_recap_day,
last_heartbeat_ts, kalshi_last_scan_ts, kalshi_snapshot); `loadState` is
a total function, so no such input raises. -/
theorem load_state_cold_start :
    loadState .missing = defaultState ∧
    loadState .unparseable = defaultState ∧
    (∀ v : RawVal, v.isDict = false → loadState (.parsed v) = defaultState) ∧
    topKeys defaultState = STATE_KEYS := by
  refine ⟨rfl, rfl, ?_, rfl⟩
  intro v hv
  cases v with
  | jnull => rfl
  | jbool b => rfl
  | jnum q => rfl
  | jstr s => rfl
  | jarr l => rfl
  | jobj d => simp [RawVal.isDict] at hv

/-- Witness for C9: a snapshot that parses to a JSON array (not a dict)
loads as the default empty state. -/
theorem load_state_cold_start_witness :
    loadState (.parsed (.jarr [])) = defaultState :=
  load_state_cold_start.2.2.1 (.jarr []) rfl

end Runner

namespace Signals

/-- signals.py guardrail constant `MIN_PRICE` (default `0.05`). -/
def MIN_PRICE : ℚ := 5 / 100

/-- signals.py guardrail constant `MAX_PRICE` (default `0.95`). -/
def MAX_PRICE : ℚ := 95 / 100

/-- signals.py movement threshold `MIN_MOVE` (default `0.04`). -/
def MIN_MOVE : ℚ := 4 / 100

/-- `should_alert(price_now, price_prev)` (signals.py): false when either
input is `None`, false when `price_now` is outside the guardrails, else
true iff the absolute tick move is at least `MIN_MOVE`. -/
def shouldAlert (priceNow pricePrev : Option ℚ) : Bool :=
  match priceNow, pricePrev with
  | some pn, some pp =>
    if pn < MIN_PRICE ∨ pn > MAX_PRICE then false
    else decide (|pn - pp| ≥ MIN_MOVE)
  | _, _ => false

/-- C4 — on numeric inputs the tick-displacement evaluator returns true
iff `price_now` lies within `[MIN_PRICE, MAX_PRICE]` and
`abs(price_now - price_prev) ≥ MIN_MOVE`; in particular it returns false
for any `price_now` outside `[0.05, 0.95]` regardless of the size of the
move. -/
theorem should_alert_iff (pn pp : ℚ) :
    (shouldAlert (some pn) (some pp) = true ↔
      MIN_PRICE ≤ pn ∧ pn ≤ MAX_PRICE ∧ MIN_MOVE ≤ |pn - pp|) ∧
    (pn < MIN_PRICE ∨ MAX_PRICE < pn →
      ∀ pp' : ℚ, shouldAlert (some pn) (some pp') = false) := by
  constructor
  · by_cases hout : pn < MIN_PRICE ∨ pn > MAX_PRICE
    · simp only [shouldAlert, if_pos hout]
      constructor
      · intro hb
        exact absurd hb (by decide)
      · rintro ⟨hle1, hle2, _⟩
        rcases hout with h | h
        · exact absurd h (not_lt.mpr hle1)
        · exact absurd h (not_lt.mpr hle2)
    · have hle1 : MIN_PRICE ≤ pn := le_of_not_lt (fun h => hout (Or.inl h))
      have hle2 : pn ≤ MAX_PRICE := le_of_not_lt (fun h => hout (Or.inr h))
      simp only [shouldAlert, if_neg hout, decide_eq_true_eq]
      constructor
      · intro hm
        exact ⟨hle1, hle2, hm⟩
      · rintro ⟨_, _, hm⟩
        exact hm
  · rintro (h | h) pp'
    · simp only [shouldAlert, if_pos (Or.inl h)]
    · simp only [shouldAlert, if_pos (Or.inr h)]

/-- Witness for C4: `price_now = 1` is outside the guardrails, so no
alert fires even for a full-size move from `0`. -/
theorem should_alert_iff_witness : shouldAlert (some 1) (some 0) = false :=
  (should_alert_iff 1 0).2 (Or.inr (by norm_num [MAX_PRICE])) 0

/-- signals.py exit constant `TP_CENTS` (default `3`, a single
take-profit tier). -/
def TP_CENTS : ℚ := 3

/-- signals.py exit constant `SL_CENTS` (default `2`). -/
def SL_CENTS : ℚ := 2

/-- signals.py exit constant `TRAIL_START_CENTS` (default `4`). -/
def TRAIL_START_CENTS : ℚ := 4

/-- signals.py exit constant `TRAIL_GAP_CENTS` (default `2`). -/
def TRAIL_GAP_CENTS : ℚ := 2

/-- signals.py exit constant `TIME_STOP_MIN` (default `20`). -/
def TIME_STOP_MIN : ℚ := 20

/-- A Python value as it can reach `exit_signal`: a number (int or
float), a string, or `None`.  Comparing or subtracting a string and a
number raises `TypeError` in Python; every comparison or subtraction in
`exit_signal` has a float on one side, so the model makes any
non-numeric operand raise. -/
inductive PyVal where
  | num (q : ℚ)
  | str (s : String)
  | pynone
deriving Repr, DecidableEq

/-- Whether the value is a string. -/
def PyVal.isStr : PyVal → Bool
  | .str _ => true
  | _ => false

/-- The keyword arguments `exit_signal` inspects, `none` meaning the key
is absent from `kwargs` (a caller may also pass an explicit Python
`None`, which is `some .pynone`). -/
structure ExitKwargs where
  price_now : Option PyVal
  price : Option PyVal
  current_price : Option PyVal
  entry_price : Option PyVal
  avg_price : Option PyVal
  cost_basis : Option PyVal
  max_price_since_entry : Option PyVal
  max_price : Option PyVal
  entry_ts : Option PyVal
  entry_time : Option PyVal
  opened_at : Option PyVal
  is_live : Option PyVal

/-- No keyword arguments at all. -/
def emptyKwargs : ExitKwargs :=
  ⟨none, none, none, none, none, none, none, none, none, none, none, none⟩

/-- `kwargs.get(k, dflt)`: the stored value when the key is present
(even if that value is `None`), else the default. -/
def kwFallback (v : Option PyVal) (dflt : PyVal) : PyVal := v.getD dflt

/-- `if x is None and len(args) >= i + 1: x = args[i]`. -/
def posFallback (v : PyVal) (args : List PyVal) (i : ℕ) : PyVal :=
  match v with
  | .pynone => (args.get? i).getD .pynone
  | w => w

/-- The kwargs-stage `price_now` (aliases `price_now`, `price`,
`current_price`). -/
def kwPriceNow (kw : ExitKwargs) : PyVal :=
  kwFallback kw.price_now (kwFallback kw.price (kwFallback kw.current_price .pynone))

/-- The kwargs-stage `entry_price` (aliases `entry_price`, `avg_price`,
`cost_basis`). -/
def kwEntryPrice (kw : ExitKwargs) : PyVal :=
  kwFallback kw.entry_price (kwFallback kw.avg_price (kwFallback kw.cost_basis .pynone))

/-- The kwargs-stage `max_price` (aliases `max_price_since_entry`,
`max_price`; its default is the kwargs-stage `price_now`, before any
positional fallback). -/
def kwMaxPrice (kw : ExitKwargs) : PyVal :=
  kwFallback kw.max_price_since_entry (kwFallback kw.max_price (kwPriceNow kw))

/-- The kwargs-stage `entry_ts` (aliases `entry_ts`, `entry_time`,
`opened_at`). -/
def kwEntryTs (kw : ExitKwargs) : PyVal :=
  kwFallback kw.entry_ts (kwFallback kw.entry_time (kwFallback kw.opened_at .pynone))

/-- `price_now` after the positional fallback `args[0]`. -/
def resolvePriceNow (args : List PyVal) (kw : ExitKwargs) : PyVal :=
  posFallback (kwPriceNow kw) args 0

/-- `entry_price` after the positional fallback `args[1]`. -/
def resolveEntryPrice (args : List PyVal) (kw : ExitKwargs) : PyVal :=
  posFallback (kwEntryPrice kw) args 1

/-- `max_price` after the positional fallback `args[2]`. -/
def resolveMaxPrice (args : List PyVal) (kw : ExitKwargs) : PyVal :=
  posFallback (kwMaxPrice kw) args 2

/-- `entry_ts` after the positional fallback `args[3]`. -/
def resolveEntryTs (args : List PyVal) (kw : ExitKwargs) : PyVal :=
  posFallback (kwEntryTs kw) args 3

/-- The dict `exit_signal` returns; the numeric interpolation inside the
reason strings is elided, the constant reason prefixes are kept. -/
structure ExitResult where
  exit : Bool
  reason : String
  action : String
deriving Repr, DecidableEq

/-- The final `hold` result. -/
def holdResult : ExitResult := ⟨false, "hold", "HOLD"⟩

/-- Python `int()` on a number: truncation toward zero. -/
def pyInt (q : ℚ) : ℤ := if 0 ≤ q then ⌊q⌋ else ⌈q⌉

/-- Python `int()` on a string: parse an optionally signed integer
(surrounding whitespace allowed), `none` when `ValueError` is raised. -/
def pyIntOfStr (s : String) : Option ℤ := s.trim.toInt?

/-- The time-stop block of `exit_signal` followed by the final hold: the
whole block sits in a `try` whose bare `except` swallows any `int()`
failure, so it always returns a result. -/
def timeStopOr (pnl : ℚ) (entryTs : PyVal) (nowTs : ℤ) : Except String ExitResult :=
  match entryTs with
  | .pynone => .ok holdResult
  | .num q =>
    if nowTs - pyInt q ≥ pyInt (TIME_STOP_MIN * 60) ∧ pnl < TP_CENTS * (1 / 2) then
      .ok ⟨true, "Time stop", "TIME_STOP"⟩
    else .ok holdResult
  | .str s =>
    match pyIntOfStr s with
    | none => .ok holdResult
    | some n =>
      if nowTs - n ≥ pyInt (TIME_STOP_MIN * 60) ∧ pnl < TP_CENTS * (1 / 2) then
        .ok ⟨true, "Time stop", "TIME_STOP"⟩
      else .ok holdResult

/-- `exit_signal(*args, **kwargs)` (signals.py): resolve the aliased and
positional arguments, return a HOLD when `price_now`/`entry_price` are
unresolved or `price_now` is outside the guardrails, else run the
take-profit / stop-loss / trailing-stop / time-stop chain.  `.error`
models an uncaught Python `TypeError` (a string where the code compares
against or subtracts from a float). -/
def exitSignal (args : List PyVal) (kw : ExitKwargs) (nowTs : ℤ) :
    Except String ExitResult :=
  if resolvePriceNow args kw = PyVal.pynone
      ∨ resolveEntryPrice args kw = PyVal.pynone then
    .ok ⟨false, "missing price_now/entry_price", "HOLD"⟩
  else
    match resolvePriceNow args kw with
    | .num pn =>
      if pn < MIN_PRICE ∨ pn > MAX_PRICE then
        .ok ⟨false, "price out of guardrails", "HOLD"⟩
      else
        match resolveEntryPrice args kw with
        | .num ep =>
          if (pn - ep) * 100 ≥ TP_CENTS then
            .ok ⟨true, "TP hit", "TAKE_PROFIT"⟩
          else if (pn - ep) * 100 ≤ -SL_CENTS then
            .ok ⟨true, "SL hit", "STOP_LOSS"⟩
          else
            match resolveMaxPrice args kw with
            | .num mp =>
              if (mp - ep) * 100 ≥ TRAIL_START_CENTS
                  ∧ pn ≤ mp - TRAIL_GAP_CENTS / 100 then
                .ok ⟨true, "Trail stop", "TRAIL_STOP"⟩
              else timeStopOr ((pn - ep) * 100) (resolveEntryTs args kw) nowTs
            | .pynone => timeStopOr ((pn - ep) * 100) (resolveEntryTs args kw) nowTs
            | .str _ => .error "TypeError"
        | _ => .error "TypeError"
    | _ => .error "TypeError"

/-- Keyword arguments carrying only `entry_price = 0.5`. -/
def entryOnlyKwargs : ExitKwargs :=
  ⟨none, none, none, some (.num (1 / 2)), none, none, none, none, none, none,
   none, none⟩

/-- Counterexample for C10: `exit_signal` is not total over every
combination of positional and keyword arguments — a string `price_now`
(here positional `args[0] = "x"` with a numeric `entry_price`) resolves
to a non-`None` value outside any numeric comparison, and the guardrail
comparison `price_now < MIN_PRICE` raises `TypeError` instead of
returning a HOLD result. -/
theorem exit_signal_typeerror_counterexample :
    exitSignal [PyVal.str "x"] entryOnlyKwargs 0 = .error "TypeError" := rfl

lemma timeStopOr_isOk (pnl : ℚ) (ts : PyVal) (nowTs : ℤ) :
    ∃ r : ExitResult, timeStopOr pnl ts nowTs = .ok r := by
  cases ts with
  | pynone => exact ⟨_, rfl⟩
  | num q =>
    simp only [timeStopOr]
    split
    · exact ⟨_, rfl⟩
    · exact ⟨_, rfl⟩
  | str s =>
    simp only [timeStopOr]
    rcases hp : pyIntOfStr s with _ | n
    · simp only [hp]
      exact ⟨_, rfl⟩
    · simp only [hp]
      split
      · exact ⟨_, rfl⟩
      · exact ⟨_, rfl⟩

/-- C10 (amended) — `exit_signal` returns the missing-arguments HOLD
(`exit = false`, `action = HOLD`, with a reason string) whenever the
resolved `price_now` or `entry_price` is `None`, and the guardrail HOLD
whenever the resolved `price_now` is a number outside
`[MIN_PRICE, MAX_PRICE]`, in both cases before evaluating any exit
condition; and it is total (never raises) whenever the resolved
`price_now`, `entry_price` and `max_price` are numeric or `None`.  It is
not total over arbitrary arguments: a string value raises `TypeError`
(see the counterexample). -/
theorem exit_signal_hold_and_total (args : List PyVal) (kw : ExitKwargs)
    (nowTs : ℤ) :
    ((resolvePriceNow args kw = PyVal.pynone
        ∨ resolveEntryPrice args kw = PyVal.pynone) →
      exitSignal args kw nowTs
        = .ok ⟨false, "missing price_now/entry_price", "HOLD"⟩) ∧
    (∀ pn : ℚ, resolvePriceNow args kw = PyVal.num pn →
      resolveEntryPrice args kw ≠ PyVal.pynone →
      (pn < MIN_PRICE ∨ MAX_PRICE < pn) →
      exitSignal args kw nowTs = .ok ⟨false, "price out of guardrails", "HOLD"⟩) ∧
    ((resolvePriceNow args kw).isStr = false →
      (resolveEntryPrice args kw).isStr = false →
      (resolveMaxPrice args kw).isStr = false →
      ∃ r : ExitResult, exitSignal args kw nowTs = .ok r) := by
  refine ⟨?_, ?_, ?_⟩
  · intro hmiss
    simp only [exitSignal]
    rw [if_pos hmiss]
  · intro pn hpn hent hout
    have hmiss : ¬ (resolvePriceNow args kw = PyVal.pynone
        ∨ resolveEntryPrice args kw = PyVal.pynone) := by
      rintro (h | h)
      · rw [hpn] at h
        exact PyVal.noConfusion h
      · exact hent h
    simp only [exitSignal]
    rw [if_neg hmiss]
    simp only [hpn]
    rw [if_pos hout]
  · intro h1 h2 h3
    by_cases hmiss : resolvePriceNow args kw = PyVal.pynone
        ∨ resolveEntryPrice args kw = PyVal.pynone
    · simp only [exitSignal]
      rw [if_pos hmiss]
      exact ⟨_, rfl⟩
    · push_neg at hmiss
      simp only [exitSignal]
      rw [if_neg (by rintro (h | h); exacts [hmiss.1 h, hmiss.2 h])]
      rcases hpn : resolvePriceNow args kw with q | s | _
      · simp only [hpn]
        split
        · exact ⟨_, rfl⟩
        · rcases hep : resolveEntryPrice args kw with e | s2 | _
          · simp only [hep]
            split
            · exact ⟨_, rfl⟩
            · split
              · exact ⟨_, rfl⟩
              · rcases hmp : resolveMaxPrice args kw with m | s3 | _
                · simp only [hmp]
                  split
                  · exact ⟨_, rfl⟩
                  · exact timeStopOr_isOk _ _ _
                · rw [hmp] at h3
                  simp [PyVal.isStr] at h3
                · simp only [hmp]
                  exact timeStopOr_isOk _ _ _
          · rw [hep] at h2
            simp [PyVal.isStr] at h2
          · exact absurd hep hmiss.2
      · rw [hpn] at h1
        simp [PyVal.isStr] at h1
      · exact absurd hpn hmiss.1

/-- Witness for C10 (amended): calling with no arguments at all yields
the missing-arguments HOLD. -/
theorem exit_signal_hold_and_total_witness :
    exitSignal [] emptyKwargs 0
      = .ok ⟨false, "missing price_now/entry_price", "HOLD"⟩ :=
  (exit_signal_hold_and_total [] emptyKwargs 0).1 (Or.inl rfl)

end Signals

end SportsEdge
